import Mathlib

/-!
Verification of the instance-local storage core of `neon`
(`crates/neon/src/instance/mod.rs`): the slot-identity allocator
(`COUNTER` / `next_id`) and the typed lazy cell `Local<T>` with its
accessor surface (`get`, `get_or_init`, `get_or_init_with`,
`get_or_try_init`, `get_or_init_default`).

The per-instance type-erased store `crate::lifecycle::LocalCell` is an
external collaborator whose source is not part of this repository slice;
its operations are modelled from the specification (interface in spec §6,
reentrancy/poisoning contract in spec §4.2 and §7, and the doc comment on
`Local::get_or_try_init`).  Everything else is translated directly from
the Rust source.

Modelling conventions:
  * machine integers (`usize`) are `Nat` with explicit `% 2^64` where the
    source can overflow (the wrapping `fetch_add`);
  * the process-wide mutable state (the `COUNTER` atomic and every
    instance's `LocalCell` map) is an explicit `World` record threaded
    through each operation;
  * the phantom type parameter `T` of `Local<T>` is a type code `TyCode`
    with a decidable-equality interpretation, so that the `dyn Any`
    erasure and the `downcast_ref` recovery are executable;
  * a Rust panic (the `unwrap` on a failed downcast, or the documented
    reentrancy panic) is the `Outcome.panic` result.
-/

namespace NeonInstance

/-- Type codes standing for the static Rust types `T` a `Local<T>` can be
instantiated at; `interp` is the Lean type a code denotes.  Decidable
equality of codes models the runtime type test of `dyn Any`. -/
inductive TyCode where
  | tnat
  | tbool
  | tstr
deriving DecidableEq

/-- The Lean type denoted by a type code. -/
@[reducible]
def TyCode.interp : TyCode → Type
  | .tnat => Nat
  | .tbool => Bool
  | .tstr => String

/-- The value produced by the `Default` impl of the type a code denotes
(`Default::default` in the source's `get_or_init_default`). -/
def TyCode.defaultVal : (c : TyCode) → c.interp
  | .tnat => (0 : Nat)
  | .tbool => (false : Bool)
  | .tstr => ("" : String)

/-- A type-erased heap value: `Box<dyn Any + Send + 'static>` in the
source, i.e. a value together with its runtime type tag. -/
structure Erased where
  code : TyCode
  val : code.interp

/-- `<dyn Any>::downcast_ref::<T>`: succeeds exactly when the runtime tag
matches the requested static type. -/
def Erased.downcast_ref (e : Erased) (c : TyCode) : Option c.interp :=
  if h : e.code = c then some (h ▸ e.val) else none

/-- Result of a call that may panic: `ok a` is normal return, `panic` is
a Rust panic unwinding out of the call. -/
inductive Outcome (α : Type) where
  | ok (a : α)
  | panic

/-- State of one slot inside one instance's `LocalCell` store.
Modelled from the spec: `crate::lifecycle::LocalCell` is not part of this
repository slice.  §3 gives "zero-or-one erased value per instance"; the
`initializing` state is the window in which a fallible producer is
running (spec §4.2 reentrancy contract, doc comment on
`Local::get_or_try_init`). -/
inductive SlotState where
  | uninit
  | initializing
  | done (v : Erased)

/-- The process-wide mutable state: the `COUNTER` atomic (spec §4.1) and
every instance's `LocalCell` map, keyed by instance id and slot id
(spec §3: one erased-value map per execution-context instance). -/
structure World where
  counter : Nat
  store : Nat → Nat → SlotState

/-- `usize` modulus: identity allocation wraps at 2^64 (64-bit target). -/
def USIZE : Nat := 2 ^ 64

/-- Write one slot of one instance's store, leaving every other
(instance, slot) pair untouched. -/
def World.setSlot (w : World) (i n : Nat) (s : SlotState) : World :=
  { w with store := fun i' n' => if i' = i ∧ n' = n then s else w.store i' n' }

/-- `fn next_id() -> usize { COUNTER.fetch_add(1, Ordering::SeqCst) }`:
returns the current counter and stores the wrapping successor. -/
def next_id (w : World) : Nat × World :=
  (w.counter, { w with counter := (w.counter + 1) % USIZE })

/-- `next_id` iterated: the list of identities returned by `k`
successive calls, with the final world. -/
def nextIds : Nat → World → List Nat × World
  | 0, w => ([], w)
  | k + 1, w =>
    match next_id w with
    | (n, w') =>
      match nextIds k w' with
      | (ns, w2) => (n :: ns, w2)

/-- Modelled from the spec: `LocalCell::get` — `lookup(context, identity)
-> Option<ErasedValue>` (spec §6); "looks up the slot; does not
initialize" (spec §4.2).  Only a populated slot holds a value. -/
def LocalCell.get (i n : Nat) (w : World) : Option Erased :=
  match w.store i n with
  | .done v => some v
  | _ => none

/-- Modelled from the spec: `LocalCell::get_or_init` — "stores `value`
only if absent; returns whichever value is now resident" (spec §6).  An
attempt to initialize a slot whose producer is currently running panics
(doc comment on `Local::get_or_try_init`; spec §7 reentrancy). -/
def LocalCell.get_or_init (i n : Nat) (w : World) (v : Erased) :
    Outcome (Erased × World) :=
  match w.store i n with
  | .done v0 => .ok (v0, w)
  | .initializing => .panic
  | .uninit => .ok (v, w.setSlot i n (.done v))

/-- Modelled from the spec: `LocalCell::get_or_init_with` — as
`get_or_init` but the value is produced on demand by a zero-argument
closure (spec §6). -/
def LocalCell.get_or_init_with (i n : Nat) (w : World) (f : Unit → Erased) :
    Outcome (Erased × World) :=
  match w.store i n with
  | .done v0 => .ok (v0, w)
  | .initializing => .panic
  | .uninit =>
    match f () with
    | v => .ok (v, w.setSlot i n (.done v))

/-- Modelled from the spec: `LocalCell::get_or_try_init` — if absent,
marks the slot as initializing, runs the producer with access to the
whole context, stores the produced value on success, and on failure
"stores nothing and propagates the failure" leaving the slot
uninitialized (spec §4.2, §6, §7).  A call on a slot already being
initialized panics (reentrancy contract). -/
def LocalCell.get_or_try_init {ε : Type} (i n : Nat) (w : World)
    (f : World → Outcome (Except ε Erased × World)) :
    Outcome (Except ε Erased × World) :=
  match w.store i n with
  | .done v => .ok (.ok v, w)
  | .initializing => .panic
  | .uninit =>
    match f (w.setSlot i n .initializing) with
    | .panic => .panic
    | .ok (.error e, w2) => .ok (.error e, w2.setSlot i n .uninit)
    | .ok (.ok v, w2) => .ok (.ok v, w2.setSlot i n (.done v))

/-- `pub struct Local<T> { _type: PhantomData<T>, id: OnceCell<usize> }`:
the phantom type is the parameter `c`; the `OnceCell<usize>` field `id`
is an `Option Nat` (named `id_cell` because Lean cannot reuse the name of
the method `Local.id`). -/
structure Local (c : TyCode) where
  id_cell : Option Nat

/-- `Local::new`: a fresh cell with no identity allocated yet. -/
def Local.new {c : TyCode} : Local c :=
  ⟨none⟩

/-- `fn id(&self) -> usize { *self.id.get_or_init(next_id) }`: return the
resolved identity, allocating it with `next_id` on first use. -/
def Local.id {c : TyCode} (l : Local c) (w : World) : Nat × Local c × World :=
  match l.id_cell with
  | some n => (n, l, w)
  | none =>
    match next_id w with
    | (n, w') => (n, ⟨some n⟩, w')

/-- `Local::get`: look up the slot via `LocalCell::get` and recover the
static type with `downcast_ref().unwrap()` (panic on a tag mismatch). -/
def Local.get {c : TyCode} (l : Local c) (i : Nat) (w : World) :
    Outcome (Option c.interp × Local c × World) :=
  match l.id w with
  | (n, l', w') =>
    match LocalCell.get i n w' with
    | none => .ok (none, l', w')
    | some v =>
      match v.downcast_ref c with
      | some t => .ok (some t, l', w')
      | none => .panic

/-- `Local::get_or_init`: delegate to `LocalCell::get_or_init` with the
eagerly boxed value, then `downcast_ref().unwrap()`. -/
def Local.get_or_init {c : TyCode} (l : Local c) (i : Nat) (w : World)
    (value : c.interp) : Outcome (c.interp × Local c × World) :=
  match l.id w with
  | (n, l', w') =>
    match LocalCell.get_or_init i n w' (Erased.mk c value) with
    | .panic => .panic
    | .ok (v, w2) =>
      match v.downcast_ref c with
      | some t => .ok (t, l', w2)
      | none => .panic

/-- `Local::get_or_init_with`: delegate to `LocalCell::get_or_init_with`
with the boxing closure `|| Box::new(f())`, then
`downcast_ref().unwrap()`. -/
def Local.get_or_init_with {c : TyCode} (l : Local c) (i : Nat) (w : World)
    (f : Unit → c.interp) : Outcome (c.interp × Local c × World) :=
  match l.id w with
  | (n, l', w') =>
    match LocalCell.get_or_init_with i n w' (fun u => Erased.mk c (f u)) with
    | .panic => .panic
    | .ok (v, w2) =>
      match v.downcast_ref c with
      | some t => .ok (t, l', w2)
      | none => .panic

/-- `Local::get_or_try_init`: delegate to `LocalCell::get_or_try_init`
with the producer `|cx| Ok(Box::new(f(cx)?))`, propagate the error with
`?`, then `downcast_ref().unwrap()`. -/
def Local.get_or_try_init {c : TyCode} {ε : Type} (l : Local c) (i : Nat)
    (w : World) (f : World → Outcome (Except ε c.interp × World)) :
    Outcome (Except ε c.interp × Local c × World) :=
  match l.id w with
  | (n, l', w') =>
    match LocalCell.get_or_try_init i n w'
        (fun wa =>
          match f wa with
          | .panic => .panic
          | .ok (.error e, wb) => .ok (.error e, wb)
          | .ok (.ok t, wb) => .ok (.ok (Erased.mk c t), wb)) with
    | .panic => .panic
    | .ok (.error e, w2) => .ok (.error e, l', w2)
    | .ok (.ok v, w2) =>
      match v.downcast_ref c with
      | some t => .ok (.ok t, l', w2)
      | none => .panic

/-- `Local::get_or_init_default`:
`self.get_or_init_with(cx, Default::default)`. -/
def Local.get_or_init_default {c : TyCode} (l : Local c) (i : Nat)
    (w : World) : Outcome (c.interp × Local c × World) :=
  l.get_or_init_with i w (fun _ => c.defaultVal)

/-- What spec §4.2 says `get_or_init_default` is: "equivalent to
`get_or_init_with` using the type's default-construction rule".  Stated
as its own definition so the source's delegation can be compared against
the spec's words. -/
def Local.get_or_init_default_spec {c : TyCode} (l : Local c) (i : Nat)
    (w : World) : Outcome (c.interp × Local c × World) :=
  Local.get_or_init_with l i w (fun _ => TyCode.defaultVal c)

/-! ## Helper lemmas -/

theorem World.setSlot_store_same (w : World) (i n : Nat) (s : SlotState) :
    (w.setSlot i n s).store i n = s := by
  simp [World.setSlot]

theorem World.setSlot_store_other (w : World) (i n : Nat) (s : SlotState)
    (i' n' : Nat) (h : i' ≠ i ∨ n' ≠ n) :
    (w.setSlot i n s).store i' n' = w.store i' n' := by
  have hc : ¬(i' = i ∧ n' = n) := by
    rintro ⟨h1, h2⟩
    cases h with
    | inl ha => exact ha h1
    | inr hb => exact hb h2
  simp [World.setSlot, hc]

theorem Erased.downcast_ref_mk (c : TyCode) (v : c.interp) :
    (Erased.mk c v).downcast_ref c = some v := by
  simp [Erased.downcast_ref]

/-- A concrete world whose instance 0 already holds 42 in slot 0 and
whose counter has moved past that slot's identity. -/
def doneWorld : World :=
  ⟨1, fun i' n' =>
    if i' = 0 ∧ n' = 0 then SlotState.done (Erased.mk .tnat 42)
    else SlotState.uninit⟩

/-- A concrete world with nothing initialized and a fresh counter. -/
def emptyWorld : World :=
  ⟨0, fun _ _ => SlotState.uninit⟩

/-- A nat-typed cell already resolved to identity 0. -/
def natCell0 : Local TyCode.tnat :=
  ⟨some 0⟩

/-- A bool-typed cell whose identity is not yet resolved. -/
def boolCellNew : Local TyCode.tbool :=
  ⟨none⟩

/-! ## Claim theorems -/

/-- C1: once a slot holds a value of the cell's type for an instance,
every accessor (`get`, `get_or_init`, `get_or_init_with`,
`get_or_try_init`, `get_or_init_default`) returns exactly that stored
value, leaves the world unchanged, and never invokes a producer — each
result is independent of the eager value or producer argument; hence any
two successive accessor calls on the same (slot, instance) return the
same stored value. -/
theorem c1_post_init_reads_stable {c : TyCode} {ε : Type} (l : Local c)
    (i n : Nat) (w : World) (v : c.interp)
    (hid : l.id_cell = some n)
    (hdone : w.store i n = SlotState.done (Erased.mk c v)) :
    l.get i w = .ok (some v, l, w)
    ∧ (∀ x : c.interp, l.get_or_init i w x = .ok (v, l, w))
    ∧ (∀ f : Unit → c.interp, l.get_or_init_with i w f = .ok (v, l, w))
    ∧ (∀ f : World → Outcome (Except ε c.interp × World),
        l.get_or_try_init i w f = .ok (.ok v, l, w))
    ∧ l.get_or_init_default i w = .ok (v, l, w) := by
  refine ⟨?_, ?_, ?_, ?_, ?_⟩ <;>
  · intros
    simp [Local.get, Local.get_or_init, Local.get_or_init_with,
      Local.get_or_try_init, Local.get_or_init_default, Local.id, hid,
      LocalCell.get, LocalCell.get_or_init, LocalCell.get_or_init_with,
      LocalCell.get_or_try_init, hdone, Erased.downcast_ref_mk]

/-- Witness for C1: in `doneWorld`, instance 0's slot 0 holds 42 and
`get` on the resolved cell returns it with the world unchanged. -/
theorem c1_witness :
    natCell0.id_cell = some 0
    ∧ doneWorld.store 0 0 = SlotState.done (Erased.mk .tnat 42)
    ∧ Local.get natCell0 0 doneWorld = .ok (some 42, natCell0, doneWorld) :=
  ⟨rfl, rfl,
    (@c1_post_init_reads_stable TyCode.tnat Unit natCell0 0 0 doneWorld 42
      rfl rfl).1⟩

/-- C6: `get` returns the absent sentinel exactly when the slot holds no
value for that instance, returns the stored value when the slot holds a
value of the cell's type, and never initializes: whenever `get` returns
normally, the cell and the whole world (so every instance's slot state)
are unchanged. -/
theorem c6_get_no_init {c : TyCode} (l : Local c) (i n : Nat) (w : World)
    (hid : l.id_cell = some n) :
    (l.get i w = .ok (none, l, w)
      ↔ (w.store i n = .uninit ∨ w.store i n = .initializing))
    ∧ (∀ t : c.interp, w.store i n = .done (Erased.mk c t) →
        l.get i w = .ok (some t, l, w))
    ∧ (∀ (r : Option c.interp) (l2 : Local c) (w2 : World),
        l.get i w = .ok (r, l2, w2) → l2 = l ∧ w2 = w) := by
  refine ⟨⟨?_, ?_⟩, ?_, ?_⟩
  · intro hg
    cases hst : w.store i n with
    | uninit => exact Or.inl rfl
    | initializing => exact Or.inr rfl
    | done v =>
      exfalso
      obtain ⟨cv, val⟩ := v
      by_cases hc : cv = c
      · subst hc
        simp [Local.get, Local.id, hid, LocalCell.get, hst,
          Erased.downcast_ref_mk] at hg
      · simp [Local.get, Local.id, hid, LocalCell.get, hst,
          Erased.downcast_ref, hc] at hg
  · intro hst
    cases hst with
    | inl h => simp [Local.get, Local.id, hid, LocalCell.get, h]
    | inr h => simp [Local.get, Local.id, hid, LocalCell.get, h]
  · intro t ht
    simp [Local.get, Local.id, hid, LocalCell.get, ht,
      Erased.downcast_ref_mk]
  · intro r l2 w2 hg
    cases hst : w.store i n with
    | uninit =>
      simp [Local.get, Local.id, hid, LocalCell.get, hst] at hg
      exact ⟨hg.2.1.symm, hg.2.2.symm⟩
    | initializing =>
      simp [Local.get, Local.id, hid, LocalCell.get, hst] at hg
      exact ⟨hg.2.1.symm, hg.2.2.symm⟩
    | done v =>
      obtain ⟨cv, val⟩ := v
      by_cases hc : cv = c
      · subst hc
        simp [Local.get, Local.id, hid, LocalCell.get, hst,
          Erased.downcast_ref_mk] at hg
        exact ⟨hg.2.1.symm, hg.2.2.symm⟩
      · simp [Local.get, Local.id, hid, LocalCell.get, hst,
          Erased.downcast_ref, hc] at hg

/-- Witness for C6: on the resolved cell, instance 1 (which never
initialized slot 0 of `doneWorld`) reads the absent sentinel. -/
theorem c6_witness :
    natCell0.id_cell = some 0
    ∧ (Local.get natCell0 1 doneWorld = .ok (none, natCell0, doneWorld)
        ↔ (doneWorld.store 1 0 = .uninit
          ∨ doneWorld.store 1 0 = .initializing)) :=
  ⟨rfl, (c6_get_no_init natCell0 1 0 doneWorld rfl).1⟩

/-- C9: the source's `get_or_init_default` delegates to
`get_or_init_with` with the type's default-construction rule, so on every
cell, instance, and world it returns the same result and produces the
same post-state as the spec's description. -/
theorem c9_default_refines_with {c : TyCode} (l : Local c) (i : Nat)
    (w : World) :
    l.get_or_init_default i w = l.get_or_init_default_spec i w := rfl

theorem nextIds_fst (k : Nat) : ∀ (w : World), w.counter + k < USIZE →
    (nextIds k w).1 = List.range' w.counter k := by
  induction k with
  | zero => intro w _; rfl
  | succ k ih =>
    intro w h
    have hlt : w.counter + 1 < USIZE := by omega
    have hmod : (w.counter + 1) % USIZE = w.counter + 1 :=
      Nat.mod_eq_of_lt hlt
    have ih' : (nextIds k ⟨w.counter + 1, w.store⟩).1
        = List.range' (w.counter + 1) k :=
      ih ⟨w.counter + 1, w.store⟩ (by show w.counter + 1 + k < USIZE; omega)
    simp only [nextIds, next_id, hmod, List.range'_succ, ih']

theorem nextIds_snd (k : Nat) : ∀ (w : World), w.counter + k < USIZE →
    (nextIds k w).2 = ⟨w.counter + k, w.store⟩ := by
  induction k with
  | zero => intro w _; rfl
  | succ k ih =>
    intro w h
    have hlt : w.counter + 1 < USIZE := by omega
    have hmod : (w.counter + 1) % USIZE = w.counter + 1 :=
      Nat.mod_eq_of_lt hlt
    have ih' : (nextIds k ⟨w.counter + 1, w.store⟩).2
        = ⟨w.counter + 1 + k, w.store⟩ :=
      ih ⟨w.counter + 1, w.store⟩ (by show w.counter + 1 + k < USIZE; omega)
    simp only [nextIds, next_id, hmod, ih']
    congr 1
    omega

theorem nextIds_getElem (k : Nat) : ∀ (j : Nat) (w : World),
    w.counter < USIZE → j < k →
    ((nextIds k w).1)[j]? = some ((w.counter + j) % USIZE) := by
  induction k with
  | zero => intro j w _ hj; omega
  | succ k ih =>
    intro j w hw hj
    match j with
    | 0 =>
      simp [nextIds, next_id, Nat.mod_eq_of_lt hw]
    | j + 1 =>
      have hw' : (w.counter + 1) % USIZE < USIZE :=
        Nat.mod_lt _ (by omega)
      have ih' := ih j { w with counter := (w.counter + 1) % USIZE }
        hw' (by omega)
      simp only [nextIds, next_id] at ih' ⊢
      simp only [List.getElem?_cons_succ, ih']
      rw [Nat.mod_add_mod]
      congr 2
      omega

theorem nextIds_counter (k : Nat) : ∀ (w : World), w.counter < USIZE →
    ((nextIds k w).2).counter = (w.counter + k) % USIZE := by
  induction k with
  | zero =>
    intro w hw
    simp [nextIds, Nat.mod_eq_of_lt hw]
  | succ k ih =>
    intro w hw
    have hw' : (w.counter + 1) % USIZE < USIZE := Nat.mod_lt _ (by omega)
    have ih' : ((nextIds k ⟨(w.counter + 1) % USIZE, w.store⟩).2).counter
        = ((w.counter + 1) % USIZE + k) % USIZE :=
      ih ⟨(w.counter + 1) % USIZE, w.store⟩ hw'
    simp only [nextIds, next_id]
    rw [ih', Nat.mod_add_mod]
    congr 1
    omega

theorem Local.id_fst_unresolved {c : TyCode} (l : Local c) (w : World)
    (h : l.id_cell = none) : (Local.id l w).1 = w.counter := by
  simp [Local.id, h, next_id]

/-- C3 counterexample: after 2^64 allocations from a zeroed counter the
counter has wrapped back to 0, so a cell that resolved to the very first
identity handed out (identity 0) and a distinct, still-unresolved cell
resolving in that post-wraparound world receive the same identity 0 —
"two distinct cells never resolve to the same identity" fails as
stated. -/
theorem c3_counterexample :
    natCell0.id_cell = some 0
    ∧ ((nextIds USIZE emptyWorld).1)[0]? = some 0
    ∧ (Local.id (⟨none⟩ : Local TyCode.tbool)
        ((nextIds USIZE emptyWorld).2)).1 = 0 := by
  refine ⟨rfl, ?_, ?_⟩
  · have h := nextIds_getElem USIZE 0 emptyWorld
      (by simp [emptyWorld, USIZE]) (by simp [USIZE])
    have h0 : (emptyWorld.counter + 0) % USIZE = 0 := by
      show (0 + 0) % USIZE = 0
      rw [Nat.zero_add, Nat.zero_mod]
    rw [h, h0]
  · rw [Local.id_fst_unresolved _ _ rfl,
      nextIds_counter USIZE emptyWorld (by simp [emptyWorld, USIZE])]
    show (0 + USIZE) % USIZE = 0
    rw [Nat.zero_add, Nat.mod_self]

/-- C3 (amended): identity resolution is lazy and one-time.  A resolved
cell's `id` returns its stored identity and leaves the world (in
particular the counter) untouched; an unresolved cell resolves through
exactly one `next_id` call and records the result in its once-cell; and,
provided every already-resolved identity lies below the counter — the
allocator invariant, which holds exactly as long as the counter has not
wrapped, i.e. while fewer than 2^64 identities have been allocated — the
newly resolved identity differs from that of every already-resolved
cell. -/
theorem c3_identity_once_distinct {c c' : TyCode} (l1 : Local c)
    (l2 : Local c') (a : Nat) (w : World)
    (h1 : l1.id_cell = some a) (h2 : l2.id_cell = none)
    (ha : a < w.counter) :
    l1.id w = (a, l1, w)
    ∧ l2.id w = ((next_id w).1, ⟨some (next_id w).1⟩, (next_id w).2)
    ∧ (l2.id w).1 ≠ a
    ∧ ((l2.id w).2.1).id_cell = some (l2.id w).1 := by
  refine ⟨?_, ?_, ?_, ?_⟩
  · simp [Local.id, h1]
  · simp [Local.id, h2]
  · simp only [Local.id, h2, next_id]
    omega
  · simp [Local.id, h2]

/-- Witness for C3: a cell resolved to identity 0 and a fresh cell, in a
world whose counter is 1. -/
theorem c3_witness :
    Local.id natCell0 doneWorld = (0, natCell0, doneWorld)
    ∧ (Local.id boolCellNew doneWorld).1 ≠ 0 :=
  ⟨(@c3_identity_once_distinct TyCode.tnat TyCode.tbool natCell0
      boolCellNew 0 doneWorld rfl rfl (by simp [doneWorld])).1,
    (@c3_identity_once_distinct TyCode.tnat TyCode.tbool natCell0
      boolCellNew 0 doneWorld rfl rfl (by simp [doneWorld])).2.2.1⟩

/-- C4 counterexample: starting from a zeroed counter, the 1st and the
(2^64+1)-th calls to `next_id` both return identity 0, because the
wrapping `fetch_add` reuses identities once the counter wraps; so "each
call returns a fresh identity distinct from every previously returned
identity" and "monotonically increasing" fail as stated. -/
theorem c4_counterexample :
    ((nextIds (USIZE + 1) emptyWorld).1)[0]? = some 0
    ∧ ((nextIds (USIZE + 1) emptyWorld).1)[USIZE]? = some 0 := by
  constructor
  · have h := nextIds_getElem (USIZE + 1) 0 emptyWorld
      (by simp [emptyWorld, USIZE]) (by omega)
    simpa [emptyWorld] using h
  · have h := nextIds_getElem (USIZE + 1) USIZE emptyWorld
      (by simp [emptyWorld, USIZE]) (by omega)
    simpa [emptyWorld, Nat.mod_self] using h

/-- C4 (amended): while fewer than 2^64 identities have been allocated
in total (no counter wraparound), `k` successive `next_id` calls return
the consecutive identities counter, counter+1, …, counter+k-1 — pairwise
distinct and strictly increasing, so each is fresh; the calls always
return normally; and the only state change is the counter advancing by
`k`, every slot of every instance's store being untouched. -/
theorem c4_next_id_fresh_monotone (k : Nat) (w : World)
    (h : w.counter + k < USIZE) :
    (nextIds k w).1 = List.range' w.counter k
    ∧ ((nextIds k w).1).Pairwise (· < ·)
    ∧ (nextIds k w).2 = ⟨w.counter + k, w.store⟩ := by
  refine ⟨nextIds_fst k w h, ?_, nextIds_snd k w h⟩
  rw [nextIds_fst k w h]
  exact List.pairwise_lt_range' w.counter k

/-- Witness for C4 (amended): three calls from a zeroed counter return
0, 1, 2 and advance the counter to 3. -/
theorem c4_witness :
    emptyWorld.counter + 3 < USIZE
    ∧ (nextIds 3 emptyWorld).1 = List.range' emptyWorld.counter 3
    ∧ ((nextIds 3 emptyWorld).1).Pairwise (· < ·) :=
  ⟨by simp [emptyWorld, USIZE],
    (c4_next_id_fresh_monotone 3 emptyWorld
      (by simp [emptyWorld, USIZE])).1,
    (c4_next_id_fresh_monotone 3 emptyWorld
      (by simp [emptyWorld, USIZE])).2.1⟩

/-- C2: if the producer passed to `get_or_try_init` fails, the call
returns exactly that error and the slot is left uninitialized for the
instance; a later call re-invokes its producer, and once a producer
succeeds with `v` the call returns `v`, the slot is populated with `v`,
and every later call returns `v` regardless of (and without running) its
producer. -/
theorem c2_try_init_error_no_poison {c : TyCode} {ε : Type} (l : Local c)
    (i n : Nat) (w w2 w3 : World) (e : ε) (v : c.interp)
    (f g h' : World → Outcome (Except ε c.interp × World))
    (hid : l.id_cell = some n)
    (hs : w.store i n = SlotState.uninit)
    (hf : f (w.setSlot i n .initializing) = .ok (.error e, w2))
    (hg : g ((w2.setSlot i n .uninit).setSlot i n .initializing)
      = .ok (.ok v, w3)) :
    l.get_or_try_init i w f = .ok (.error e, l, w2.setSlot i n .uninit)
    ∧ (w2.setSlot i n .uninit).store i n = SlotState.uninit
    ∧ l.get_or_try_init i (w2.setSlot i n .uninit) g
        = .ok (.ok v, l, w3.setSlot i n (.done (Erased.mk c v)))
    ∧ l.get_or_try_init i (w3.setSlot i n (.done (Erased.mk c v))) h'
        = .ok (.ok v, l, w3.setSlot i n (.done (Erased.mk c v))) := by
  refine ⟨?_, ?_, ?_, ?_⟩
  · simp [Local.get_or_try_init, Local.id, hid,
      LocalCell.get_or_try_init, hs, hf]
  · exact World.setSlot_store_same w2 i n _
  · simp [Local.get_or_try_init, Local.id, hid,
      LocalCell.get_or_try_init, World.setSlot_store_same, hg,
      Erased.downcast_ref_mk]
  · simp [Local.get_or_try_init, Local.id, hid,
      LocalCell.get_or_try_init, World.setSlot_store_same,
      Erased.downcast_ref_mk]

/-- Witness for C2: a producer failing with error 5 leaves the slot
absent; a retry then succeeds with 7. -/
theorem c2_witness :
    emptyWorld.store 0 0 = SlotState.uninit
    ∧ @Local.get_or_try_init TyCode.tnat Nat natCell0 0 emptyWorld
        (fun w' => .ok (.error 5, w'))
        = .ok (.error 5, natCell0,
            (emptyWorld.setSlot 0 0 .initializing).setSlot 0 0 .uninit)
    ∧ @Local.get_or_try_init TyCode.tnat Nat natCell0 0
        ((emptyWorld.setSlot 0 0 .initializing).setSlot 0 0 .uninit)
        (fun w' => .ok (.ok 7, w'))
        = .ok (.ok 7, natCell0,
            (((emptyWorld.setSlot 0 0 .initializing).setSlot 0 0
                .uninit).setSlot 0 0 .initializing).setSlot 0 0
              (.done (Erased.mk .tnat 7))) :=
  ⟨rfl,
    (@c2_try_init_error_no_poison TyCode.tnat Nat natCell0 0 0 emptyWorld
        (emptyWorld.setSlot 0 0 .initializing)
        (((emptyWorld.setSlot 0 0 .initializing).setSlot 0 0
            .uninit).setSlot 0 0 .initializing) 5 7
        (fun w' => .ok (.error 5, w')) (fun w' => .ok (.ok 7, w'))
        (fun w' => .ok (.error 9, w')) rfl rfl rfl rfl).1,
    (@c2_try_init_error_no_poison TyCode.tnat Nat natCell0 0 0 emptyWorld
        (emptyWorld.setSlot 0 0 .initializing)
        (((emptyWorld.setSlot 0 0 .initializing).setSlot 0 0
            .uninit).setSlot 0 0 .initializing) 5 7
        (fun w' => .ok (.error 5, w')) (fun w' => .ok (.ok 7, w'))
        (fun w' => .ok (.error 9, w')) rfl rfl rfl rfl).2.2.1⟩

/-- C5: instance isolation.  A fresh cell initialized by instance `a`
with value 42 returns 42; a subsequent `get` by `a` sees the stored
value, while `get` by any other instance `b` that never initialized the
slot sees the absent sentinel; more generally the initializing call
leaves the slot of every other instance exactly as it was. -/
theorem c5_instance_isolation (a b : Nat) (w : World)
    (hab : b ≠ a)
    (hsa : w.store a w.counter = SlotState.uninit)
    (hsb : w.store b w.counter = SlotState.uninit) :
    Local.get_or_init_with (⟨none⟩ : Local TyCode.tnat) a w (fun _ => 42)
      = .ok (42, ⟨some w.counter⟩,
          ((next_id w).2).setSlot a w.counter
            (.done (Erased.mk .tnat 42)))
    ∧ Local.get (⟨some w.counter⟩ : Local TyCode.tnat) a
        (((next_id w).2).setSlot a w.counter (.done (Erased.mk .tnat 42)))
        = .ok (some 42, ⟨some w.counter⟩,
            ((next_id w).2).setSlot a w.counter
              (.done (Erased.mk .tnat 42)))
    ∧ Local.get (⟨some w.counter⟩ : Local TyCode.tnat) b
        (((next_id w).2).setSlot a w.counter (.done (Erased.mk .tnat 42)))
        = .ok (none, ⟨some w.counter⟩,
            ((next_id w).2).setSlot a w.counter
              (.done (Erased.mk .tnat 42)))
    ∧ (∀ i' : Nat, i' ≠ a →
        (((next_id w).2).setSlot a w.counter
            (.done (Erased.mk .tnat 42))).store i' w.counter
          = w.store i' w.counter) := by
  refine ⟨?_, ?_, ?_, ?_⟩
  · simp [Local.get_or_init_with, Local.id, next_id,
      LocalCell.get_or_init_with, hsa, Erased.downcast_ref_mk]
  · simp [Local.get, Local.id, LocalCell.get,
      World.setSlot_store_same, Erased.downcast_ref_mk]
  · have hfr := World.setSlot_store_other ((next_id w).2) a w.counter
      (.done (Erased.mk .tnat 42)) b w.counter (Or.inl hab)
    simp only [next_id] at hfr
    simp [Local.get, Local.id, LocalCell.get, next_id, hfr, hsb]
  · intro i' hi'
    have hfr := World.setSlot_store_other ((next_id w).2) a w.counter
      (.done (Erased.mk .tnat 42)) i' w.counter (Or.inl hi')
    simpa [next_id] using hfr

/-- Witness for C5: instance 0 initializes a fresh cell in `emptyWorld`;
instance 1 then reads the absent sentinel. -/
theorem c5_witness :
    (1 : Nat) ≠ 0
    ∧ Local.get (⟨some emptyWorld.counter⟩ : Local TyCode.tnat) 1
        (((next_id emptyWorld).2).setSlot 0 emptyWorld.counter
          (.done (Erased.mk .tnat 42)))
        = .ok (none, ⟨some emptyWorld.counter⟩,
            ((next_id emptyWorld).2).setSlot 0 emptyWorld.counter
              (.done (Erased.mk .tnat 42))) :=
  ⟨Nat.one_ne_zero,
    (c5_instance_isolation 0 1 emptyWorld Nat.one_ne_zero rfl rfl).2.2.1⟩

/-- C7: under the type-erasure invariant — every value stored under the
cell's resolved identity carries the cell's own type tag — and outside
the reentrancy window (the slot is not mid-initialization, which panics
by the separate C8 contract before any downcast), no accessor ever
reaches the `unwrap` panic: the type recovery of the erased value always
succeeds. -/
theorem c7_downcast_never_panics {c : TyCode} {ε : Type} (l : Local c)
    (i n : Nat) (w : World)
    (hid : l.id_cell = some n)
    (hsafe : ∀ v : Erased, w.store i n = SlotState.done v → v.code = c)
    (hni : w.store i n ≠ SlotState.initializing) :
    l.get i w ≠ .panic
    ∧ (∀ x : c.interp, l.get_or_init i w x ≠ .panic)
    ∧ (∀ f : Unit → c.interp, l.get_or_init_with i w f ≠ .panic)
    ∧ (∀ r : Except ε c.interp,
        l.get_or_try_init i w (fun w' => .ok (r, w')) ≠ .panic) := by
  cases hst : w.store i n with
  | initializing => exact absurd hst hni
  | uninit =>
    refine ⟨?_, ?_, ?_, ?_⟩
    · simp [Local.get, Local.id, hid, LocalCell.get, hst]
    · intro x
      simp [Local.get_or_init, Local.id, hid, LocalCell.get_or_init,
        hst, Erased.downcast_ref_mk]
    · intro f
      simp [Local.get_or_init_with, Local.id, hid,
        LocalCell.get_or_init_with, hst, Erased.downcast_ref_mk]
    · intro r
      cases r with
      | error e =>
        simp [Local.get_or_try_init, Local.id, hid,
          LocalCell.get_or_try_init, hst]
      | ok t =>
        simp [Local.get_or_try_init, Local.id, hid,
          LocalCell.get_or_try_init, hst, Erased.downcast_ref_mk]
  | done v =>
    have hcode : v.code = c := hsafe v hst
    obtain ⟨cv, val⟩ := v
    cases hcode
    refine ⟨?_, ?_, ?_, ?_⟩
    · simp [Local.get, Local.id, hid, LocalCell.get, hst,
        Erased.downcast_ref_mk]
    · intro x
      simp [Local.get_or_init, Local.id, hid, LocalCell.get_or_init,
        hst, Erased.downcast_ref_mk]
    · intro f
      simp [Local.get_or_init_with, Local.id, hid,
        LocalCell.get_or_init_with, hst, Erased.downcast_ref_mk]
    · intro r
      simp [Local.get_or_try_init, Local.id, hid,
        LocalCell.get_or_try_init, hst, Erased.downcast_ref_mk]

/-- Witness for C7: in `doneWorld` instance 0's slot 0 holds a value
tagged with the cell's type, and `get` does not panic. -/
theorem c7_witness :
    natCell0.id_cell = some 0
    ∧ Local.get natCell0 0 doneWorld ≠ .panic :=
  ⟨rfl,
    (@c7_downcast_never_panics TyCode.tnat Unit natCell0 0 0 doneWorld rfl
      (by intro v hv; simp [doneWorld] at hv; exact hv ▸ rfl)
      (by simp [doneWorld])).1⟩

/-- C8: reentrant initialization fails fast.  If, while the producer of
`get_or_try_init` runs for a cell on an instance, the producer itself
calls any initializing accessor (`get_or_init`, `get_or_init_with`,
`get_or_try_init`, `get_or_init_default`) on the same cell with the same
instance's context, the whole call panics — it does not deadlock,
recurse, or return a value. -/
theorem c8_reentrant_init_panics {c : TyCode} {ε : Type} (l : Local c)
    (i n : Nat) (w : World) (x : c.interp) (f : Unit → c.interp)
    (g : World → Outcome (Except ε c.interp × World))
    (hid : l.id_cell = some n)
    (hs : w.store i n = SlotState.uninit) :
    @Local.get_or_try_init c ε l i w
      (fun w' =>
        match l.get_or_init i w' x with
        | .panic => .panic
        | .ok (t, _, wb) => .ok (.ok t, wb)) = .panic
    ∧ @Local.get_or_try_init c ε l i w
        (fun w' =>
          match l.get_or_init_with i w' f with
          | .panic => .panic
          | .ok (t, _, wb) => .ok (.ok t, wb)) = .panic
    ∧ l.get_or_try_init i w
        (fun w' =>
          match l.get_or_try_init i w' g with
          | .panic => .panic
          | .ok (r, _, wb) => .ok (r, wb)) = .panic
    ∧ @Local.get_or_try_init c ε l i w
        (fun w' =>
          match l.get_or_init_default i w' with
          | .panic => .panic
          | .ok (t, _, wb) => .ok (.ok t, wb)) = .panic := by
  refine ⟨?_, ?_, ?_, ?_⟩ <;>
    simp [Local.get_or_try_init, Local.get_or_init,
      Local.get_or_init_with, Local.get_or_init_default, Local.id, hid,
      LocalCell.get_or_try_init, LocalCell.get_or_init,
      LocalCell.get_or_init_with, hs, World.setSlot_store_same]

/-- Witness for C8: a producer that recursively re-enters its own
uninitialized cell on the same instance panics. -/
theorem c8_witness :
    emptyWorld.store 0 0 = SlotState.uninit
    ∧ @Local.get_or_try_init TyCode.tnat Nat natCell0 0 emptyWorld
        (fun w' =>
          match Local.get_or_init natCell0 0 w' 1 with
          | .panic => .panic
          | .ok (t, _, wb) => .ok (.ok t, wb)) = .panic :=
  ⟨rfl,
    (@c8_reentrant_init_panics TyCode.tnat Nat natCell0 0 0 emptyWorld 1
      (fun _ => 2) (fun w' => .ok (.ok 3, w')) rfl rfl).1⟩

theorem World.setSlot2_store_other (w : World) (i n : Nat)
    (s1 s2 : SlotState) (i' n' : Nat) (h : i' ≠ i ∨ n' ≠ n) :
    ((w.setSlot i n s1).setSlot i n s2).store i' n' = w.store i' n' := by
  rw [World.setSlot_store_other _ _ _ _ _ _ h,
    World.setSlot_store_other _ _ _ _ _ _ h]

/-- C10: frame effect.  Whenever an accessor call for a cell on instance
`i` returns normally, the slot state of every other (instance, slot)
pair — any pair that differs from (`i`, the cell's resolved identity) —
is exactly what it was before the call. -/
theorem c10_accessors_frame {c : TyCode} {ε : Type} (l : Local c)
    (i : Nat) (w : World) (i' n' : Nat)
    (h : i' ≠ i ∨ n' ≠ (l.id w).1) :
    (∀ (r : Option c.interp) (l2 : Local c) (w2 : World),
        l.get i w = .ok (r, l2, w2) → w2.store i' n' = w.store i' n')
    ∧ (∀ (x r : c.interp) (l2 : Local c) (w2 : World),
        l.get_or_init i w x = .ok (r, l2, w2) →
          w2.store i' n' = w.store i' n')
    ∧ (∀ (f : Unit → c.interp) (r : c.interp) (l2 : Local c) (w2 : World),
        l.get_or_init_with i w f = .ok (r, l2, w2) →
          w2.store i' n' = w.store i' n')
    ∧ (∀ (rr r : Except ε c.interp) (l2 : Local c) (w2 : World),
        l.get_or_try_init i w (fun w' => .ok (rr, w')) = .ok (r, l2, w2) →
          w2.store i' n' = w.store i' n')
    ∧ (∀ (r : c.interp) (l2 : Local c) (w2 : World),
        l.get_or_init_default i w = .ok (r, l2, w2) →
          w2.store i' n' = w.store i' n') := by
  cases hcell : l.id_cell with
  | some m =>
    rw [show (l.id w).1 = m by simp [Local.id, hcell]] at h
    refine ⟨?_, ?_, ?_, ?_, ?_⟩
    · intro r l2 w2 heq
      cases hst : w.store i m with
      | uninit =>
        simp [Local.get, Local.id, hcell, LocalCell.get, hst] at heq
        rw [← heq.2.2]
      | initializing =>
        simp [Local.get, Local.id, hcell, LocalCell.get, hst] at heq
        rw [← heq.2.2]
      | done v =>
        obtain ⟨cv, val⟩ := v
        by_cases hc : cv = c
        · subst hc
          simp [Local.get, Local.id, hcell, LocalCell.get, hst,
            Erased.downcast_ref_mk] at heq
          rw [← heq.2.2]
        · simp [Local.get, Local.id, hcell, LocalCell.get, hst,
            Erased.downcast_ref, hc] at heq
    · intro x r l2 w2 heq
      cases hst : w.store i m with
      | uninit =>
        simp [Local.get_or_init, Local.id, hcell,
          LocalCell.get_or_init, hst, Erased.downcast_ref_mk] at heq
        rw [← heq.2.2, World.setSlot_store_other _ _ _ _ _ _ h]
      | initializing =>
        simp [Local.get_or_init, Local.id, hcell,
          LocalCell.get_or_init, hst] at heq
      | done v =>
        obtain ⟨cv, val⟩ := v
        by_cases hc : cv = c
        · subst hc
          simp [Local.get_or_init, Local.id, hcell,
            LocalCell.get_or_init, hst, Erased.downcast_ref_mk] at heq
          rw [← heq.2.2]
        · simp [Local.get_or_init, Local.id, hcell,
            LocalCell.get_or_init, hst, Erased.downcast_ref, hc] at heq
    · intro f r l2 w2 heq
      cases hst : w.store i m with
      | uninit =>
        simp [Local.get_or_init_with, Local.id, hcell,
          LocalCell.get_or_init_with, hst, Erased.downcast_ref_mk] at heq
        rw [← heq.2.2, World.setSlot_store_other _ _ _ _ _ _ h]
      | initializing =>
        simp [Local.get_or_init_with, Local.id, hcell,
          LocalCell.get_or_init_with, hst] at heq
      | done v =>
        obtain ⟨cv, val⟩ := v
        by_cases hc : cv = c
        · subst hc
          simp [Local.get_or_init_with, Local.id, hcell,
            LocalCell.get_or_init_with, hst, Erased.downcast_ref_mk] at heq
          rw [← heq.2.2]
        · simp [Local.get_or_init_with, Local.id, hcell,
            LocalCell.get_or_init_with, hst, Erased.downcast_ref, hc] at heq
    · intro rr r l2 w2 heq
      cases hst : w.store i m with
      | uninit =>
        cases rr with
        | error e =>
          simp [Local.get_or_try_init, Local.id, hcell,
            LocalCell.get_or_try_init, hst] at heq
          rw [← heq.2.2, World.setSlot2_store_other _ _ _ _ _ _ _ h]
        | ok t =>
          simp [Local.get_or_try_init, Local.id, hcell,
            LocalCell.get_or_try_init, hst, Erased.downcast_ref_mk] at heq
          rw [← heq.2.2, World.setSlot2_store_other _ _ _ _ _ _ _ h]
      | initializing =>
        simp [Local.get_or_try_init, Local.id, hcell,
          LocalCell.get_or_try_init, hst] at heq
      | done v =>
        obtain ⟨cv, val⟩ := v
        by_cases hc : cv = c
        · subst hc
          simp [Local.get_or_try_init, Local.id, hcell,
            LocalCell.get_or_try_init, hst, Erased.downcast_ref_mk] at heq
          rw [← heq.2.2]
        · simp [Local.get_or_try_init, Local.id, hcell,
            LocalCell.get_or_try_init, hst, Erased.downcast_ref, hc] at heq
    · intro r l2 w2 heq
      cases hst : w.store i m with
      | uninit =>
        simp [Local.get_or_init_default, Local.get_or_init_with,
          Local.id, hcell, LocalCell.get_or_init_with, hst,
          Erased.downcast_ref_mk] at heq
        rw [← heq.2.2, World.setSlot_store_other _ _ _ _ _ _ h]
      | initializing =>
        simp [Local.get_or_init_default, Local.get_or_init_with,
          Local.id, hcell, LocalCell.get_or_init_with, hst] at heq
      | done v =>
        obtain ⟨cv, val⟩ := v
        by_cases hc : cv = c
        · subst hc
          simp [Local.get_or_init_default, Local.get_or_init_with,
            Local.id, hcell, LocalCell.get_or_init_with, hst,
            Erased.downcast_ref_mk] at heq
          rw [← heq.2.2]
        · simp [Local.get_or_init_default, Local.get_or_init_with,
            Local.id, hcell, LocalCell.get_or_init_with, hst,
            Erased.downcast_ref, hc] at heq
  | none =>
    rw [show (l.id w).1 = w.counter by simp [Local.id, hcell, next_id]] at h
    refine ⟨?_, ?_, ?_, ?_, ?_⟩
    · intro r l2 w2 heq
      cases hst : w.store i w.counter with
      | uninit =>
        simp [Local.get, Local.id, hcell, next_id, LocalCell.get,
          hst] at heq
        rw [← heq.2.2]
      | initializing =>
        simp [Local.get, Local.id, hcell, next_id, LocalCell.get,
          hst] at heq
        rw [← heq.2.2]
      | done v =>
        obtain ⟨cv, val⟩ := v
        by_cases hc : cv = c
        · subst hc
          simp [Local.get, Local.id, hcell, next_id, LocalCell.get,
            hst, Erased.downcast_ref_mk] at heq
          rw [← heq.2.2]
        · simp [Local.get, Local.id, hcell, next_id, LocalCell.get,
            hst, Erased.downcast_ref, hc] at heq
    · intro x r l2 w2 heq
      cases hst : w.store i w.counter with
      | uninit =>
        simp [Local.get_or_init, Local.id, hcell, next_id,
          LocalCell.get_or_init, hst, Erased.downcast_ref_mk] at heq
        rw [← heq.2.2, World.setSlot_store_other _ _ _ _ _ _ h]
      | initializing =>
        simp [Local.get_or_init, Local.id, hcell, next_id,
          LocalCell.get_or_init, hst] at heq
      | done v =>
        obtain ⟨cv, val⟩ := v
        by_cases hc : cv = c
        · subst hc
          simp [Local.get_or_init, Local.id, hcell, next_id,
            LocalCell.get_or_init, hst, Erased.downcast_ref_mk] at heq
          rw [← heq.2.2]
        · simp [Local.get_or_init, Local.id, hcell, next_id,
            LocalCell.get_or_init, hst, Erased.downcast_ref, hc] at heq
    · intro f r l2 w2 heq
      cases hst : w.store i w.counter with
      | uninit =>
        simp [Local.get_or_init_with, Local.id, hcell, next_id,
          LocalCell.get_or_init_with, hst, Erased.downcast_ref_mk] at heq
        rw [← heq.2.2, World.setSlot_store_other _ _ _ _ _ _ h]
      | initializing =>
        simp [Local.get_or_init_with, Local.id, hcell, next_id,
          LocalCell.get_or_init_with, hst] at heq
      | done v =>
        obtain ⟨cv, val⟩ := v
        by_cases hc : cv = c
        · subst hc
          simp [Local.get_or_init_with, Local.id, hcell, next_id,
            LocalCell.get_or_init_with, hst, Erased.downcast_ref_mk] at heq
          rw [← heq.2.2]
        · simp [Local.get_or_init_with, Local.id, hcell, next_id,
            LocalCell.get_or_init_with, hst, Erased.downcast_ref,
            hc] at heq
    · intro rr r l2 w2 heq
      cases hst : w.store i w.counter with
      | uninit =>
        cases rr with
        | error e =>
          simp [Local.get_or_try_init, Local.id, hcell, next_id,
            LocalCell.get_or_try_init, hst] at heq
          rw [← heq.2.2, World.setSlot2_store_other _ _ _ _ _ _ _ h]
        | ok t =>
          simp [Local.get_or_try_init, Local.id, hcell, next_id,
            LocalCell.get_or_try_init, hst, Erased.downcast_ref_mk] at heq
          rw [← heq.2.2, World.setSlot2_store_other _ _ _ _ _ _ _ h]
      | initializing =>
        simp [Local.get_or_try_init, Local.id, hcell, next_id,
          LocalCell.get_or_try_init, hst] at heq
      | done v =>
        obtain ⟨cv, val⟩ := v
        by_cases hc : cv = c
        · subst hc
          simp [Local.get_or_try_init, Local.id, hcell, next_id,
            LocalCell.get_or_try_init, hst, Erased.downcast_ref_mk] at heq
          rw [← heq.2.2]
        · simp [Local.get_or_try_init, Local.id, hcell, next_id,
            LocalCell.get_or_try_init, hst, Erased.downcast_ref,
            hc] at heq
    · intro r l2 w2 heq
      cases hst : w.store i w.counter with
      | uninit =>
        simp [Local.get_or_init_default, Local.get_or_init_with,
          Local.id, hcell, next_id, LocalCell.get_or_init_with, hst,
          Erased.downcast_ref_mk] at heq
        rw [← heq.2.2, World.setSlot_store_other _ _ _ _ _ _ h]
      | initializing =>
        simp [Local.get_or_init_default, Local.get_or_init_with,
          Local.id, hcell, next_id, LocalCell.get_or_init_with,
          hst] at heq
      | done v =>
        obtain ⟨cv, val⟩ := v
        by_cases hc : cv = c
        · subst hc
          simp [Local.get_or_init_default, Local.get_or_init_with,
            Local.id, hcell, next_id, LocalCell.get_or_init_with, hst,
            Erased.downcast_ref_mk] at heq
          rw [← heq.2.2]
        · simp [Local.get_or_init_default, Local.get_or_init_with,
            Local.id, hcell, next_id, LocalCell.get_or_init_with, hst,
            Erased.downcast_ref, hc] at heq

/-- Witness for C10: initializing slot 0 on instance 0 leaves instance
1's slot 0 untouched. -/
theorem c10_witness :
    ((1 : Nat) ≠ 0 ∨ (0 : Nat) ≠ (Local.id natCell0 emptyWorld).1)
    ∧ (∀ (x r : Nat) (l2 : Local TyCode.tnat) (w2 : World),
        Local.get_or_init natCell0 0 emptyWorld x = .ok (r, l2, w2) →
        w2.store 1 0 = emptyWorld.store 1 0) :=
  ⟨Or.inl Nat.one_ne_zero,
    (@c10_accessors_frame TyCode.tnat Unit natCell0 0 emptyWorld
      1 0 (Or.inl Nat.one_ne_zero)).2.1⟩

end NeonInstance
